import Mathlib

/-!
A verification development for the blog server (`main.go`).

The program is a small HTTP server: `homeHandler` lists the posts found by
`parseMarkdownMetadata`, `pageHandler` renders one post, `GetNavbar` loads a
shared HTML fragment.  Everything the handlers do goes through the operating
system or a library (file reads, the directory walk, goldmark, templates,
the response writer), so the embedding is parametrised by an environment
`Env` that gives the result of each such call, and the handlers are pure
functions of that environment.

* Go strings are modelled by `String`; the path functions only look for the
  bytes `/` and `.`, which never occur inside a multi-byte UTF-8 sequence, so
  working on characters instead of bytes does not change them.
* Errors are values of `Error`.  They stand for the errors produced by
  `os.Lstat`, directory reads, `os.ReadFile` and goldmark; the sentinels
  `filepath.SkipDir` and `filepath.SkipAll` are not among them.
* `log.Fatal` ends the process; a handler run that reaches it is an
  `Outcome.fatal`.
-/

namespace Blog

/-! ## Errors, strings and paths (Go standard library, Unix) -/

/-- An error value returned by the operating system or by a library. -/
structure Error where
  msg : String
deriving DecidableEq

/-- Path separator test `os.IsPathSeparator` on Unix. -/
def IsPathSeparator (c : Char) : Bool := c == '/'

/-- Loop of `filepath.Ext`, run over the reversed path: walk back from the last
byte up to the first separator, and return the suffix that starts at the first
dot met. `acc` is the part of the path already walked over. -/
def extScan : List Char → List Char → List Char
  | [], _ => []
  | c :: rest, acc =>
    if IsPathSeparator c then []
    else if c == '.' then c :: acc
    else extScan rest (c :: acc)

/-- Function `filepath.Ext`: the suffix beginning at the final dot in the final
element of the path, empty if there is no dot. -/
def filepath.Ext (path : String) : String :=
  ⟨extScan path.data.reverse []⟩

/-- Function `filepath.Base`: the last element of the path, after removing
trailing separators; `"."` for the empty path and `"/"` for a path made of
separators only. -/
def filepath.Base (path : String) : String :=
  if path.data.isEmpty then "."
  else
    let stripped := path.data.reverse.dropWhile IsPathSeparator
    let last := (stripped.takeWhile (fun c => !IsPathSeparator c)).reverse
    if last.isEmpty then "/" else ⟨last⟩

/-- Function `strings.HasSuffix`:
`len(s) >= len(suffix) && s[len(s)-len(suffix):] == suffix`. -/
def strings.HasSuffix (s suffix : String) : Bool :=
  decide (suffix.data.length ≤ s.data.length) &&
    s.data.drop (s.data.length - suffix.data.length) == suffix.data

/-- Function `strings.TrimSuffix`: `s` without the trailing `suffix`, or `s`
itself when it does not end in `suffix`. -/
def strings.TrimSuffix (s suffix : String) : String :=
  if strings.HasSuffix s suffix then ⟨s.data.take (s.data.length - suffix.data.length)⟩
  else s

/-- Split a path at every separator (the elements may be empty). -/
def splitSep : List Char → List (List Char)
  | [] => [[]]
  | c :: rest =>
    if IsPathSeparator c then [] :: splitSep rest
    else
      match splitSep rest with
      | [] => [[c]]
      | e :: es => (c :: e) :: es

/-- One element of the input of `filepath.Clean`. `out` holds the elements
written so far, last one first. Empty and `.` elements are dropped; `..`
removes the last real element, is kept at the front of a path that is not
rooted, and is dropped at the root; any other element is appended. -/
def cleanStep (rooted : Bool) (out : List (List Char)) (elem : List Char) :
    List (List Char) :=
  if elem = [] ∨ elem = ['.'] then out
  else if elem = ['.', '.'] then
    match out with
    | top :: below => if top = ['.', '.'] then elem :: out else below
    | [] => if rooted then [] else [elem]
  else elem :: out

/-- Function `filepath.Clean` on Unix, element by element: the shortest path
equivalent to `path` by purely lexical processing. -/
def filepath.Clean (path : String) : String :=
  if path.data.isEmpty then "."
  else
    let rooted := (path.data.head?.map IsPathSeparator).getD false
    let out := (splitSep path.data).foldl (cleanStep rooted) []
    let body := List.intercalate ['/'] out.reverse
    let cleaned := if rooted then '/' :: body else body
    if cleaned.isEmpty then "." else ⟨cleaned⟩

/-- Function `filepath.Join` for two elements: the elements from the first
non-empty one on, joined by the separator and cleaned; empty when both are
empty. -/
def filepath.Join (a b : String) : String :=
  if a ≠ "" then filepath.Clean (a ++ "/" ++ b)
  else if b ≠ "" then filepath.Clean b
  else ""

/-! ## Front-matter metadata (goldmark-meta) -/

/-- A value of the front-matter map `map[string]interface{}`: what the YAML
decoder stores in an `interface{}`. -/
inductive MetaValue where
  | str (s : String)
  | int (i : Int)
  | float (text : String)
  | bool (b : Bool)
  | null
  | seq (items : List MetaValue)
  | map (fields : List (String × MetaValue))

/-- The metadata map returned by `meta.Get`; keys are looked up from the front.
The nil map of a file without front-matter is the empty list. -/
abbrev MetaData := List (String × MetaValue)

/-- Map index expression `metaData[key]`: `none` is the nil interface value
obtained for an absent key. -/
def MetaData.index (metaData : MetaData) (key : String) : Option MetaValue :=
  List.lookup key metaData

/-- Type assertion `v, ok := x.(string)`: the string and `true` when `x` holds
a string, the zero value `""` and `false` otherwise. -/
def assertString : Option MetaValue → String × Bool
  | some (.str s) => (s, true)
  | _ => ("", false)

/-! ## Data model of `main.go` -/

/-- Struct `PageData`: one entry of the listing on the home page. -/
structure PageData where
  Title : String
  Date : String
  Filename : String
deriving DecidableEq

/-- Struct `BlogData`: the record given to the blog template. -/
structure BlogData where
  Title : String
  Date : String
  Navbar : String
  Content : String
deriving DecidableEq

/-- Struct `HomeData`: an embedded `BlogData` and the listed pages. -/
structure HomeData extends BlogData where
  Pages : List PageData
deriving DecidableEq

/-- The `data any` argument of `Template.Execute`, as the handlers use it. -/
inductive TemplateData where
  | home (data : HomeData)
  | blog (data : BlogData)
deriving DecidableEq

/-! ## The environment -/

/-- What `os.FileInfo` tells the walk callback: only `IsDir` is read. -/
structure FileInfo where
  isDir : Bool
deriving DecidableEq

/-- What `filepath.Walk` finds at a path: `os.Lstat` fails, or the entry is
not a directory (a regular file, a symbolic link, a device), or it is a
directory whose names cannot be read, or a directory with its entries in the
order `readDirNames` returns them. -/
inductive Node where
  | lstatErr (err : Error)
  | file
  | dirErr (err : Error)
  | dir (children : List (String × Node))

/-- Result of `md.Convert` with the meta extension: the HTML written to the
output, the metadata left in the parser context, and the returned error. -/
structure Converted where
  html : String
  metaData : MetaData
  err : Option Error

/-- The world outside the program. -/
structure Env where
  /-- Tree that `filepath.Walk` sees below a root path. -/
  Tree : String → Node
  /-- Function `os.ReadFile`. -/
  ReadFile : String → Except Error String
  /-- Function `md.Convert` followed by `meta.Get(context)`. -/
  Convert : String → Converted
  /-- Function `template.ParseFiles`: the error, if any. The parsed template is
  named by its file. -/
  ParseFiles : String → Option Error
  /-- Function `t.Execute(w, data)`: the bytes written to `w` and the error. -/
  Execute : String → TemplateData → String × Option Error

/-! ## The response writer -/

/-- State of an `http.ResponseWriter`: the status code once the header has been
written, and the body written so far. -/
structure ResponseWriter where
  status : Option Nat
  body : String
deriving DecidableEq

/-- A call the handler makes to the world outside, in program order. -/
inductive Event where
  | walk (dir : String)
  | readFile (path : String)
  | convert (source : String)
  | parseFiles (file : String)
  | execute (file : String) (data : TemplateData)
deriving DecidableEq

/-- State of one request: the response writer and the calls made so far. -/
structure St where
  w : ResponseWriter
  trace : List Event
deriving DecidableEq

/-- State at the start of a request: nothing written, nothing called. -/
def St.fresh : St := { w := { status := none, body := "" }, trace := [] }

/-- Record a call. -/
def St.log (st : St) (e : Event) : St := { st with trace := st.trace ++ [e] }

/-- Method `WriteHeader`: the first call fixes the status, later calls are
ignored. -/
def WriteHeader (st : St) (code : Nat) : St :=
  match st.w.status with
  | some _ => st
  | none => { st with w := { st.w with status := some code } }

/-- Method `Write`: writes the header with status 200 if it was not written
yet, then appends to the body. -/
def Write (st : St) (data : String) : St :=
  let st := WriteHeader st 200
  { st with w := { st.w with body := st.w.body ++ data } }

/-- Constant `http.StatusNotFound`. -/
def http.StatusNotFound : Nat := 404

/-- Constant `http.StatusInternalServerError`. -/
def http.StatusInternalServerError : Nat := 500

/-- Function `http.Error`: `w.WriteHeader(code)` then `fmt.Fprintln(w, error)`.
(The headers it sets are not modelled.) -/
def http.Error (st : St) (error : String) (code : Nat) : St :=
  Write (WriteHeader st code) (error ++ "\n")

/-- The writes that `t.Execute(w, data)` makes on the response writer: the
rendered bytes go to `Write`; a template that renders nothing makes no call to
`Write`, so the header stays as it was. -/
def writeOutput (st : St) (out : String) : St :=
  if out = "" then st else Write st out

/-- How a handler run ends: it returns to the server, or `log.Fatal` exits the
process. -/
inductive Outcome where
  | returned (st : St)
  | fatal (st : St) (err : Error)
deriving DecidableEq

/-- State of the request when the handler run ended. -/
def Outcome.st : Outcome → St
  | .returned st => st
  | .fatal st _ => st

/-- Status code of the response: the one written by the handler, or 200 when
the handler returned without writing a header. There is no response when the
process exited. -/
def Outcome.responseStatus : Outcome → Option Nat
  | .returned st => some (st.w.status.getD 200)
  | .fatal _ _ => none

/-- Templates executed during the run, with the data given to each. -/
def Outcome.executed (o : Outcome) : List (String × TemplateData) :=
  o.st.trace.filterMap (fun e =>
    match e with
    | .execute file data => some (file, data)
    | _ => none)

/-! ## `filepath.Walk` -/

/-- Type `filepath.WalkFunc`, with the state the closure updates made
explicit: the callback gets the path, the file info (nil when `Lstat` failed)
and the error met at that path, and returns the new state and its error. -/
abbrev WalkFunc (σ : Type) := String → Option FileInfo → Option Error → σ → σ × Option Error

mutual
/-- Function `walk` of `path/filepath`: call the callback on the entry; for a
directory that was read and accepted, descend into its entries. An entry whose
`Lstat` failed is given to the callback with a nil info (this is done by the
caller of `walk` in Go). -/
def filepath.walk {σ : Type} (walkFn : WalkFunc σ) (path : String) : Node → σ → σ × Option Error
  | .lstatErr err, s => walkFn path none (some err) s
  | .file, s => walkFn path (some ⟨false⟩) none s
  | .dirErr err, s => walkFn path (some ⟨true⟩) (some err) s
  | .dir children, s =>
    match walkFn path (some ⟨true⟩) none s with
    | (s, some err1) => (s, some err1)
    | (s, none) => filepath.walkNames walkFn path children s
/-- The loop of `walk` over the names of a directory: stop at the first error. -/
def filepath.walkNames {σ : Type} (walkFn : WalkFunc σ) (path : String) :
    List (String × Node) → σ → σ × Option Error
  | [], s => (s, none)
  | (name, node) :: rest, s =>
    match filepath.walk walkFn (filepath.Join path name) node s with
    | (s, some err) => (s, some err)
    | (s, none) => filepath.walkNames walkFn path rest s
end

/-- Function `filepath.Walk`: walk the tree rooted at `root`. -/
def filepath.Walk {σ : Type} (env : Env) (root : String) (walkFn : WalkFunc σ) (s : σ) :
    σ × Option Error :=
  filepath.walk walkFn root (env.Tree root) s

/-! ## The program -/

/-- Method `IsDir` on the info given to the callback. `Walk` gives a nil info
only together with an error, and the callback returns on that error before it
reads the info. -/
def IsDir : Option FileInfo → Bool
  | some info => info.isDir
  | none => false

/-- The closure given to `filepath.Walk` in `parseMarkdownMetadata`
(main.go, lines 152-189); the state is the captured `metadataList`. -/
def walkFn (env : Env) : WalkFunc (List PageData) :=
  fun path info err metadataList =>
    match err with
    | some err => (metadataList, some err)
    | none =>
      if IsDir info || filepath.Ext path != ".md" then (metadataList, none)
      else
        match env.ReadFile path with
        | .error err => (metadataList, some err)
        | .ok content =>
          let conv := env.Convert content
          match conv.err with
          | some err => (metadataList, some err)
          | none =>
            let metaData := conv.metaData
            let title := (assertString (metaData.index "title")).1
            let date := (assertString (metaData.index "date")).1
            let page : PageData :=
              { Title := title
                Date := date
                Filename := strings.TrimSuffix (filepath.Base path) (filepath.Ext path) }
            (metadataList ++ [page], none)

/-- Function `parseMarkdownMetadata` (main.go, lines 149-196): the list and the
error it returns. -/
def parseMarkdownMetadata (env : Env) (dir : String) : List PageData × Option Error :=
  match filepath.Walk env dir (walkFn env) [] with
  | (_, some err) => ([], some err)
  | (metadataList, none) => (metadataList, none)

/-- Method `GetNavbar` (main.go, lines 38-45): the updated record and request
state. -/
def GetNavbar (env : Env) (data : BlogData) (st : St) : BlogData × St :=
  let st := st.log (.readFile "./templates/navbar.html")
  match env.ReadFile "./templates/navbar.html" with
  | .error _ => (data, http.Error st "Navbar file not found" http.StatusNotFound)
  | .ok navbar => ({ data with Navbar := navbar }, st)

/-- Function `homeHandler` (main.go, lines 71-90). -/
def homeHandler (env : Env) (st : St) : Outcome :=
  let st := st.log (.walk "./blogs")
  match parseMarkdownMetadata env "./blogs" with
  | (_, some _) => .returned (http.Error st "What happened" http.StatusNotFound)
  | (data, none) =>
    let homeData : HomeData :=
      { Title := "", Date := "", Navbar := "", Content := "", Pages := data }
    let (blogData, st) := GetNavbar env homeData.toBlogData st
    let homeData : HomeData := { homeData with toBlogData := blogData }
    let st := st.log (.parseFiles "home.html")
    match env.ParseFiles "home.html" with
    | some err => .fatal st err
    | none =>
      let st := st.log (.execute "home.html" (.home homeData))
      match env.Execute "home.html" (.home homeData) with
      | (out, some err) => .fatal (writeOutput st out) err
      | (out, none) => .returned (writeOutput st out)

/-- Function `pageHandler` (main.go, lines 92-147); `name` is
`r.PathValue("name")`. -/
def pageHandler (env : Env) (name : String) (st : St) : Outcome :=
  if name.length == 0 then homeHandler env st
  else
    let mdPath := filepath.Join "blogs" (name ++ ".md")
    let st := st.log (.readFile mdPath)
    match env.ReadFile mdPath with
    | .error _ => .returned (http.Error st "Markdown file not found" http.StatusNotFound)
    | .ok mdContent =>
      let st := st.log (.convert mdContent)
      let conv := env.Convert mdContent
      match conv.err with
      | some _ =>
        .returned (http.Error st "Error processing markdown" http.StatusInternalServerError)
      | none =>
        let metaData := conv.metaData
        let title := "Untitled"
        let date := "01/01/20XX"
        let title :=
          match assertString (metaData.index "title") with
          | (t, true) => t
          | (_, false) => title
        let date :=
          match assertString (metaData.index "date") with
          | (d, true) => d
          | (_, false) => date
        let st := st.log (.parseFiles "./templates/blog.html")
        match env.ParseFiles "./templates/blog.html" with
        | some err => .fatal st err
        | none =>
          let data : BlogData :=
            { Title := title, Date := date, Navbar := "", Content := conv.html }
          let (data, st) := GetNavbar env data st
          let st := st.log (.execute "./templates/blog.html" (.blog data))
          match env.Execute "./templates/blog.html" (.blog data) with
          | (out, some err) => .fatal (writeOutput st out) err
          | (out, none) => .returned (writeOutput st out)

/-! ## Specification-side definitions -/

/-- One call of the walk callback: the path, the info and the error it gets. -/
structure Visit where
  path : String
  info : Option FileInfo
  err : Option Error
deriving DecidableEq

mutual
/-- The entries of a tree in the order `filepath.Walk` visits them: an entry
before the entries below it, the names of a directory in their order. -/
def visits (path : String) : Node → List Visit
  | .lstatErr err => [⟨path, none, some err⟩]
  | .file => [⟨path, some ⟨false⟩, none⟩]
  | .dirErr err => [⟨path, some ⟨true⟩, some err⟩]
  | .dir children => ⟨path, some ⟨true⟩, none⟩ :: visitsNames path children
/-- The visits below a directory. -/
def visitsNames (path : String) : List (String × Node) → List Visit
  | [] => []
  | (name, node) :: rest => visits (filepath.Join path name) node ++ visitsNames path rest
end

/-- Run a callback over a sequence of visits, stopping at the first error. -/
def runVisits {σ : Type} (walkFn : WalkFunc σ) : List Visit → σ → σ × Option Error
  | [], s => (s, none)
  | v :: vs, s =>
    match walkFn v.path v.info v.err s with
    | (s, some err) => (s, some err)
    | (s, none) => runVisits walkFn vs s

/-- A visited entry that is not a directory and whose extension is `.md`. -/
def Visit.isMarkdownFile (v : Visit) : Bool :=
  !IsDir v.info && filepath.Ext v.path == ".md"

/-- The `PageData` built for the file at `path` (main.go, lines 161-185), or
the error of the read or of the conversion. -/
def pageOf (env : Env) (path : String) : Except Error PageData :=
  match env.ReadFile path with
  | .error err => .error err
  | .ok content =>
    match (env.Convert content).err with
    | some err => .error err
    | none =>
      .ok { Title := (assertString ((env.Convert content).metaData.index "title")).1
            Date := (assertString ((env.Convert content).metaData.index "date")).1
            Filename := strings.TrimSuffix (filepath.Base path) (filepath.Ext path) }

/-- The failure of a step of the walk, if it fails: the walk reports an error
for the entry, or the entry is a `.md` file and reading it or converting it
fails. -/
def stepError (env : Env) (v : Visit) : Option Error :=
  match v.err with
  | some err => some err
  | none =>
    if v.isMarkdownFile then
      match pageOf env v.path with
      | .error err => some err
      | .ok _ => none
    else none

/-- Title of a post as the specification words it: the value at key `title`
when it is present and a string, `"Untitled"` otherwise. -/
def titleSpec (metaData : MetaData) : String :=
  match List.lookup "title" metaData with
  | some (.str s) => s
  | _ => "Untitled"

/-- Date of a post as the specification words it: the value at key `date` when
it is present and a string, `"01/01/20XX"` otherwise. -/
def dateSpec (metaData : MetaData) : String :=
  match List.lookup "date" metaData with
  | some (.str s) => s
  | _ => "01/01/20XX"

/-- Title and date fields of the record given to a template. -/
def TemplateData.titleDate : TemplateData → String × String
  | .home data => (data.Title, data.Date)
  | .blog data => (data.Title, data.Date)

/-- Navbar field of the record given to a template. -/
def TemplateData.navbar : TemplateData → String
  | .home data => data.Navbar
  | .blog data => data.Navbar

/-- Pages field of the record given to a template (the blog record has none). -/
def TemplateData.pages : TemplateData → List PageData
  | .home data => data.Pages
  | .blog _ => []

/-- A path that names an entry directly inside the directory `blogs`. -/
def directlyInBlogs (path : String) : Prop :=
  path = "blogs/" ++ filepath.Base path

/-! ## Example environments -/

/-- Error of a missing file. -/
def enoent : Error := ⟨"no such file or directory"⟩

/-- A template engine that always succeeds and prints the fields it is given. -/
def printFields (file : String) (data : TemplateData) : String × Option Error :=
  (file ++ "[" ++ data.titleDate.1 ++ "|" ++ data.titleDate.2 ++ "|" ++ data.navbar ++ "]", none)

/-- A converter keyed on the file contents: `"A"` has a full front-matter with
an extra key, `"Z"` has a title that is not a string and no date, `"!"` fails,
anything else has no front-matter. -/
def sampleConvert (content : String) : Converted :=
  if content = "A" then
    { html := "<h1>Hi</h1>"
      metaData := [("tags", .seq [.str "x"]), ("title", .str "Hello"), ("date", .str "2024-01-01")]
      err := none }
  else if content = "Z" then
    { html := "<p>z</p>", metaData := [("title", .int 3)], err := none }
  else if content = "!" then
    { html := "", metaData := [], err := some ⟨"conversion failed"⟩ }
  else { html := "<p>" ++ content ++ "</p>", metaData := [], err := none }

/-- A flat `blogs` directory: two posts, a text file, and a directory whose
name ends in `.md`; the navbar fragment exists. -/
def flatEnv : Env where
  Tree := fun _ =>
    .dir [("a.md", .file), ("notes.md", .dir [("img.png", .file)]), ("readme.txt", .file),
      ("z.md", .file)]
  ReadFile := fun path =>
    if path = "blogs/a.md" then .ok "A"
    else if path = "blogs/z.md" then .ok "Z"
    else if path = "./templates/navbar.html" then .ok "<nav/>"
    else .error enoent
  Convert := sampleConvert
  ParseFiles := fun _ => none
  Execute := printFields

/-- The flat directory without the navbar fragment. -/
def noNavbarEnv : Env :=
  { flatEnv with
    ReadFile := fun path =>
      if path = "./templates/navbar.html" then .error enoent else flatEnv.ReadFile path }

/-- A `blogs` directory whose only post lies in a subdirectory. -/
def nestedEnv : Env where
  Tree := fun _ => .dir [("sub", .dir [("post.md", .file)])]
  ReadFile := fun path =>
    if path = "blogs/sub/post.md" then .ok "P"
    else if path = "./templates/navbar.html" then .ok "<nav/>"
    else .error enoent
  Convert := sampleConvert
  ParseFiles := fun _ => none
  Execute := printFields

/-- A `blogs` directory in which the second post cannot be converted and the
third cannot be read. -/
def brokenEnv : Env where
  Tree := fun _ => .dir [("a.md", .file), ("b.md", .file), ("c.md", .file)]
  ReadFile := fun path =>
    if path = "blogs/a.md" then .ok "A"
    else if path = "blogs/b.md" then .ok "!"
    else .error enoent
  Convert := sampleConvert
  ParseFiles := fun _ => none
  Execute := printFields

/-- An empty `blogs` directory. -/
def emptyEnv : Env :=
  { flatEnv with Tree := fun _ => .dir [] }

/-- An empty `blogs` directory and templates that render nothing. -/
def silentEnv : Env :=
  { emptyEnv with Execute := fun _ _ => ("", none) }

/-! ## The walk as a run over the visit sequence -/

theorem runVisits_append {σ : Type} (fn : WalkFunc σ) (a b : List Visit) (s : σ) :
    runVisits fn (a ++ b) s =
      match runVisits fn a s with
      | (s, some err) => (s, some err)
      | (s, none) => runVisits fn b s := by
  induction a generalizing s with
  | nil => simp [runVisits]
  | cons v vs ih =>
    simp only [List.cons_append, runVisits]
    rcases h : fn v.path v.info v.err s with ⟨s1, _ | e⟩
    · simp [ih]
    · simp

theorem runVisits_single {σ : Type} (fn : WalkFunc σ) (v : Visit) (s : σ) :
    runVisits fn [v] s = fn v.path v.info v.err s := by
  simp only [runVisits]
  rcases h : fn v.path v.info v.err s with ⟨s1, _ | e⟩ <;> simp

mutual
theorem walk_eq_runVisits {σ : Type} (fn : WalkFunc σ) (path : String) :
    (node : Node) → (s : σ) → filepath.walk fn path node s = runVisits fn (visits path node) s
  | .lstatErr err, s => by
    rw [filepath.walk, visits, runVisits_single]
  | .file, s => by
    rw [filepath.walk, visits, runVisits_single]
  | .dirErr err, s => by
    rw [filepath.walk, visits, runVisits_single]
  | .dir children, s => by
    rw [filepath.walk, visits, runVisits]
    rcases h : fn path (some ⟨true⟩) none s with ⟨s1, _ | e⟩
    · simp only []
      exact walkNames_eq_runVisits fn path children s1
    · simp
theorem walkNames_eq_runVisits {σ : Type} (fn : WalkFunc σ) (path : String) :
    (children : List (String × Node)) → (s : σ) →
      filepath.walkNames fn path children s = runVisits fn (visitsNames path children) s
  | [], s => by
    rw [filepath.walkNames, visitsNames, runVisits]
  | (name, node) :: rest, s => by
    rw [filepath.walkNames, visitsNames, runVisits_append,
      walk_eq_runVisits fn (filepath.Join path name) node s]
    rcases h : runVisits fn (visits (filepath.Join path name) node) s with ⟨s1, _ | e⟩
    · simp only []
      exact walkNames_eq_runVisits fn path rest s1
    · simp
end

/-! ## The callback of `parseMarkdownMetadata` -/

theorem walkFn_none (env : Env) (path : String) (info : Option FileInfo) (acc : List PageData) :
    walkFn env path info none acc =
      if IsDir info || filepath.Ext path != ".md" then (acc, none)
      else
        match pageOf env path with
        | .error err => (acc, some err)
        | .ok page => (acc ++ [page], none) := by
  unfold walkFn pageOf
  by_cases hskip : (IsDir info || filepath.Ext path != ".md") = true
  · simp [hskip]
  · simp only [hskip]
    cases hr : env.ReadFile path with
    | error e => simp
    | ok content =>
      cases hc : (env.Convert content).err with
      | some e => simp [hc]
      | none => simp [hc]

theorem toOption_ok (page : PageData) :
    (Except.ok page : Except Error PageData).toOption = some page := rfl

theorem walkFn_visit (env : Env) (v : Visit) (acc : List PageData) :
    walkFn env v.path v.info v.err acc =
      match stepError env v with
      | some err => (acc, some err)
      | none => (acc ++ ([v].filter Visit.isMarkdownFile).filterMap
          (fun u => (pageOf env u.path).toOption), none) := by
  unfold stepError
  cases he : v.err with
  | some e => simp [walkFn]
  | none =>
    rw [walkFn_none]
    by_cases hmd : v.isMarkdownFile = true
    · have hskip : (IsDir v.info || filepath.Ext v.path != ".md") = false := by
        simp only [Visit.isMarkdownFile, Bool.and_eq_true, Bool.not_eq_true', beq_iff_eq] at hmd
        simp [hmd.1, hmd.2]
      simp only [hskip, hmd, List.filter_cons_of_pos, List.filter_nil]
      cases hp : pageOf env v.path with
      | error e => simp
      | ok page => simp [List.filterMap_cons, hp, toOption_ok]
    · have hskip : (IsDir v.info || filepath.Ext v.path != ".md") = true := by
        simp only [Visit.isMarkdownFile, Bool.and_eq_true, Bool.not_eq_true', beq_iff_eq,
          not_and] at hmd
        cases hd : IsDir v.info with
        | true => simp
        | false => simp [hmd hd]
      simp [hskip, hmd]

theorem runVisits_walkFn_err (env : Env) (vs : List Visit) (acc : List PageData) :
    (runVisits (walkFn env) vs acc).2 = vs.findSome? (stepError env) := by
  induction vs generalizing acc with
  | nil => simp [runVisits]
  | cons v vs ih =>
    simp only [runVisits, walkFn_visit, List.findSome?_cons]
    cases hs : stepError env v with
    | some e => simp
    | none => simp [ih]

theorem runVisits_walkFn_ok (env : Env) (vs : List Visit) (acc : List PageData)
    (h : vs.findSome? (stepError env) = none) :
    (runVisits (walkFn env) vs acc).1 =
      acc ++ (vs.filter Visit.isMarkdownFile).filterMap (fun u => (pageOf env u.path).toOption) := by
  induction vs generalizing acc with
  | nil => simp [runVisits]
  | cons v vs ih =>
    simp only [List.findSome?_cons] at h
    cases hs : stepError env v with
    | some e => simp [hs] at h
    | none =>
      simp only [hs] at h
      simp only [runVisits, walkFn_visit, hs]
      rw [ih _ h]
      by_cases hmd : v.isMarkdownFile = true
      · rw [List.filter_cons_of_pos hmd, List.filter_cons_of_pos hmd, List.filter_nil,
          List.append_assoc, ← List.filterMap_append]
        rfl
      · simp [hmd, List.filter_cons]

theorem parseMarkdownMetadata_eq (env : Env) (dir : String) :
    parseMarkdownMetadata env dir =
      match (visits dir (env.Tree dir)).findSome? (stepError env) with
      | some err => ([], some err)
      | none =>
        (((visits dir (env.Tree dir)).filter Visit.isMarkdownFile).filterMap
          (fun u => (pageOf env u.path).toOption), none) := by
  unfold parseMarkdownMetadata filepath.Walk
  rw [walk_eq_runVisits]
  have herr := runVisits_walkFn_err env (visits dir (env.Tree dir)) []
  cases hf : (visits dir (env.Tree dir)).findSome? (stepError env) with
  | some e =>
    rw [hf] at herr
    rcases hr : runVisits (walkFn env) (visits dir (env.Tree dir)) [] with ⟨l, oe⟩
    rw [hr] at herr
    simp only at herr
    subst herr
    rfl
  | none =>
    rw [hf] at herr
    have hok := runVisits_walkFn_ok env (visits dir (env.Tree dir)) [] hf
    rcases hr : runVisits (walkFn env) (visits dir (env.Tree dir)) [] with ⟨l, oe⟩
    rw [hr] at herr hok
    simp only at herr hok
    subst herr
    simp [hok]

theorem pageOf_ok_of_stepError_none (env : Env) (v : Visit) (hs : stepError env v = none)
    (hmd : v.isMarkdownFile = true) : ∃ page, pageOf env v.path = .ok page := by
  unfold stepError at hs
  cases he : v.err with
  | some e => simp [he] at hs
  | none =>
    simp only [he, hmd, if_true] at hs
    cases hp : pageOf env v.path with
    | error e => simp [hp] at hs
    | ok page => exact ⟨page, rfl⟩

theorem stepError_none_of_findSome (env : Env) (vs : List Visit)
    (h : vs.findSome? (stepError env) = none) : ∀ v ∈ vs, stepError env v = none := by
  intro v hv
  rw [List.findSome?_eq_none_iff] at h
  exact h v hv

theorem parseMarkdownMetadata_ok (env : Env) (dir : String) (pages : List PageData)
    (h : parseMarkdownMetadata env dir = (pages, none)) :
    (visits dir (env.Tree dir)).findSome? (stepError env) = none ∧
      pages.map Except.ok =
        ((visits dir (env.Tree dir)).filter Visit.isMarkdownFile).map
          (fun u => pageOf env u.path) := by
  rw [parseMarkdownMetadata_eq] at h
  cases hf : (visits dir (env.Tree dir)).findSome? (stepError env) with
  | some e => simp [hf] at h
  | none =>
    refine ⟨rfl, ?_⟩
    simp only [hf, Prod.mk.injEq, and_true] at h
    subst h
    have hall := stepError_none_of_findSome env _ hf
    generalize visits dir (env.Tree dir) = vs at hall
    induction vs with
    | nil => simp
    | cons v vs ih =>
      have ih2 := ih (fun u hu => hall u (List.mem_cons_of_mem _ hu))
      by_cases hmd : v.isMarkdownFile = true
      · obtain ⟨page, hp⟩ := pageOf_ok_of_stepError_none env v (hall v (List.mem_cons_self _ _)) hmd
        simp only [List.filter_cons_of_pos hmd, List.filterMap_cons, hp, toOption_ok,
          List.map_cons]
        rw [ih2]
      · simp only [hmd, List.filter_cons, Bool.false_eq_true, if_false]
        exact ih2

/-! ## Paths -/

theorem extScan_length (r acc : List Char) :
    extScan r acc = [] ∨ acc.length + 1 ≤ (extScan r acc).length := by
  induction r generalizing acc with
  | nil => left; rfl
  | cons c r ih =>
    unfold extScan
    by_cases hsep : IsPathSeparator c = true
    · left; simp [hsep]
    · by_cases hdot : (c == '.') = true
      · right; simp [hsep, hdot]
      · simp only [hsep, hdot, Bool.false_eq_true, if_false]
        rcases ih (c :: acc) with h | h
        · left; exact h
        · right
          simp only [List.length_cons] at h
          omega

theorem extScan_md (r : List Char) (h : extScan r [] = ['.', 'm', 'd']) :
    ∃ rest, r = 'd' :: 'm' :: '.' :: rest := by
  match r with
  | [] => simp [extScan] at h
  | [c1] =>
    unfold extScan at h
    by_cases hsep : IsPathSeparator c1 = true
    · simp [hsep] at h
    · by_cases hdot : (c1 == '.') = true
      · simp [hsep, hdot] at h
      · simp [hsep, hdot, extScan] at h
  | [c1, c2] =>
    unfold extScan at h
    by_cases hsep : IsPathSeparator c1 = true
    · simp [hsep] at h
    · by_cases hdot : (c1 == '.') = true
      · simp [hsep, hdot] at h
      · simp only [hsep, hdot, Bool.false_eq_true, if_false] at h
        unfold extScan at h
        by_cases hsep2 : IsPathSeparator c2 = true
        · simp [hsep2] at h
        · by_cases hdot2 : (c2 == '.') = true
          · simp [hsep2, hdot2] at h
          · simp [hsep2, hdot2, extScan] at h
  | c1 :: c2 :: c3 :: rest =>
    unfold extScan at h
    by_cases hsep : IsPathSeparator c1 = true
    · simp [hsep] at h
    · by_cases hdot : (c1 == '.') = true
      · simp [hsep, hdot] at h
      · simp only [hsep, hdot, Bool.false_eq_true, if_false] at h
        unfold extScan at h
        by_cases hsep2 : IsPathSeparator c2 = true
        · simp [hsep2] at h
        · by_cases hdot2 : (c2 == '.') = true
          · simp [hsep2, hdot2] at h
          · simp only [hsep2, hdot2, Bool.false_eq_true, if_false] at h
            unfold extScan at h
            by_cases hsep3 : IsPathSeparator c3 = true
            · simp [hsep3] at h
            · by_cases hdot3 : (c3 == '.') = true
              · simp only [hsep3, hdot3, Bool.false_eq_true, if_false, if_true,
                  List.cons.injEq, and_true] at h
                obtain ⟨h3, h2, h1⟩ := h
                exact ⟨rest, by rw [h1, h2, h3]⟩
              · simp only [hsep3, hdot3, Bool.false_eq_true, if_false] at h
                rcases extScan_length rest [c3, c2, c1] with h0 | h4
                · rw [h0] at h; simp at h
                · rw [h] at h4; simp at h4

/-- When the extension of a path is `.md`, its base name ends in `.md` and
holds no separator. -/
theorem base_of_ext_md (path : String) (h : filepath.Ext path = ".md") :
    ∃ stem : List Char, (filepath.Base path).data = stem ++ ['.', 'm', 'd'] ∧
      ∀ c ∈ (filepath.Base path).data, IsPathSeparator c = false := by
  have h1 : extScan path.data.reverse [] = ['.', 'm', 'd'] := by
    have := congrArg String.data h
    simpa [filepath.Ext] using this
  obtain ⟨rest, hrest⟩ := extScan_md _ h1
  have hne : path.data.isEmpty = false := by
    cases hp : path.data with
    | nil => rw [hp] at hrest; simp at hrest
    | cons c cs => rfl
  have hd : IsPathSeparator 'd' = false := by decide
  have hm : IsPathSeparator 'm' = false := by decide
  have hdot : IsPathSeparator '.' = false := by decide
  have hbase : (filepath.Base path).data =
      (rest.takeWhile (fun c => !IsPathSeparator c)).reverse ++ ['.', 'm', 'd'] := by
    unfold filepath.Base
    simp only [hne, hrest, Bool.false_eq_true, if_false]
    simp [List.dropWhile, List.takeWhile, hd, hm, hdot]
  refine ⟨_, hbase, ?_⟩
  intro c hc
  rw [hbase] at hc
  simp only [List.mem_append, List.mem_reverse, List.mem_cons, List.mem_singleton,
    List.not_mem_nil, or_false] at hc
  rcases hc with hc | hc | hc | hc
  · have := List.mem_takeWhile_imp hc
    simpa using this
  · rw [hc]; exact hdot
  · rw [hc]; exact hm
  · rw [hc]; exact hd

/-- The filename stem followed by `.md` is the base name of a `.md` path. -/
theorem trimSuffix_base_md (path : String) (h : filepath.Ext path = ".md") :
    strings.TrimSuffix (filepath.Base path) (filepath.Ext path) ++ ".md" = filepath.Base path := by
  obtain ⟨stem, hstem, _⟩ := base_of_ext_md path h
  rw [h]
  have hsuf : strings.HasSuffix (filepath.Base path) ".md" = true := by
    unfold strings.HasSuffix
    rw [hstem]
    simp
  unfold strings.TrimSuffix
  rw [hsuf]
  apply String.ext
  simp [hstem]

theorem splitSep_single (b : List Char) (hsep : ∀ c ∈ b, IsPathSeparator c = false) :
    splitSep b = [b] := by
  induction b with
  | nil => rfl
  | cons c cs ih =>
    have hc : IsPathSeparator c = false := hsep c (List.mem_cons_self _ _)
    have hcs := ih (fun x hx => hsep x (List.mem_cons_of_mem _ hx))
    simp [splitSep, hc, hcs]

/-- Cleaning `blogs/<name>` changes nothing when the name ends in `.md` and
holds no separator. -/
theorem clean_blogs_child (b stem : List Char) (hb : b = stem ++ ['.', 'm', 'd'])
    (hsep : ∀ c ∈ b, IsPathSeparator c = false) :
    filepath.Clean ⟨'b' :: 'l' :: 'o' :: 'g' :: 's' :: '/' :: b⟩ =
      ⟨'b' :: 'l' :: 'o' :: 'g' :: 's' :: '/' :: b⟩ := by
  have hlen : 3 ≤ b.length := by rw [hb]; simp
  have h0 : b ≠ [] := by intro h; rw [h] at hlen; simp at hlen
  have h1 : b ≠ ['.'] := by intro h; rw [h] at hlen; simp at hlen
  have h2 : b ≠ ['.', '.'] := by intro h; rw [h] at hlen; simp at hlen
  have hsplit : splitSep ('b' :: 'l' :: 'o' :: 'g' :: 's' :: '/' :: b) =
      [['b', 'l', 'o', 'g', 's'], b] := by
    simp [splitSep, IsPathSeparator, splitSep_single b hsep]
  unfold filepath.Clean
  simp only [hsplit]
  simp [cleanStep, h0, h1, h2, IsPathSeparator, List.intercalate, List.intersperse]

theorem join_blogs_child (name : String) (stem : List Char)
    (hb : name.data = stem ++ ['.', 'm', 'd'])
    (hsep : ∀ c ∈ name.data, IsPathSeparator c = false) :
    filepath.Join "blogs" name = "blogs/" ++ name := by
  unfold filepath.Join
  have hne : ("blogs" : String) ≠ "" := by decide
  simp only [hne, ne_eq, not_false_eq_true, if_true]
  have e1 : ("blogs" ++ "/" ++ name : String) =
      ⟨'b' :: 'l' :: 'o' :: 'g' :: 's' :: '/' :: name.data⟩ := by
    apply String.ext; simp
  have e2 : ("blogs/" ++ name : String) =
      ⟨'b' :: 'l' :: 'o' :: 'g' :: 's' :: '/' :: name.data⟩ := by
    apply String.ext; simp
  rw [e1, e2]
  exact clean_blogs_child name.data stem hb hsep

/-- The path `pageHandler` resolves for the filename stem of a `.md` file that
lies directly in `blogs` is the path of that file. -/
theorem resolve_stem (path : String) (h : filepath.Ext path = ".md")
    (hdir : directlyInBlogs path) :
    filepath.Join "blogs"
      (strings.TrimSuffix (filepath.Base path) (filepath.Ext path) ++ ".md") = path := by
  rw [trimSuffix_base_md path h]
  obtain ⟨stem, hstem, hsep⟩ := base_of_ext_md path h
  rw [join_blogs_child (filepath.Base path) stem hstem hsep]
  exact hdir.symm

/-! ## The handlers -/

theorem title_default (metaData : MetaData) :
    (match assertString (metaData.index "title") with
      | (t, true) => t
      | (_, false) => "Untitled") = titleSpec metaData := by
  unfold titleSpec MetaData.index
  cases h : List.lookup "title" metaData with
  | none => rfl
  | some v => cases v <;> rfl

theorem date_default (metaData : MetaData) :
    (match assertString (metaData.index "date") with
      | (d, true) => d
      | (_, false) => "01/01/20XX") = dateSpec metaData := by
  unfold dateSpec MetaData.index
  cases h : List.lookup "date" metaData with
  | none => rfl
  | some v => cases v <;> rfl

theorem writeOutput_trace (st : St) (out : String) :
    (writeOutput st out).trace = st.trace := by
  unfold writeOutput
  split
  · rfl
  · simp [Write, WriteHeader]
    cases st.w.status <;> rfl

/-- Output written after the header: the status stays, the body grows. -/
theorem writeOutput_written (w : ResponseWriter) (trace : List Event) (code : Nat)
    (out : String) (hw : w.status = some code) :
    writeOutput { w := w, trace := trace } out =
      { w := { status := some code, body := w.body ++ out }, trace := trace } := by
  unfold writeOutput
  split
  · next h =>
    subst h
    cases w
    simp at hw
    simp [hw]
  · simp [Write, WriteHeader, hw]

/-- Output written on a fresh response: the server answers 200 with it. -/
theorem writeOutput_fresh (trace : List Event) (out : String) :
    ((writeOutput { w := { status := none, body := "" }, trace := trace } out).w.status.getD 200
        = 200) ∧
      (writeOutput { w := { status := none, body := "" }, trace := trace } out).w.body = out := by
  unfold writeOutput
  split
  · next h => subst h; exact ⟨rfl, rfl⟩
  · simp [Write, WriteHeader]

/-- The run of `pageHandler` once the file is read and converted. -/
theorem pageHandler_rendered (env : Env) (name content : String)
    (hname : name.length ≠ 0)
    (hread : env.ReadFile (filepath.Join "blogs" (name ++ ".md")) = .ok content)
    (hconv : (env.Convert content).err = none)
    (hparse : env.ParseFiles "./templates/blog.html" = none) :
    (pageHandler env name St.fresh).st =
      (match env.ReadFile "./templates/navbar.html" with
        | .ok navbar =>
          writeOutput
            { w := { status := none, body := "" }
              trace := [.readFile (filepath.Join "blogs" (name ++ ".md")), .convert content,
                .parseFiles "./templates/blog.html", .readFile "./templates/navbar.html",
                .execute "./templates/blog.html" (.blog
                  { Title := titleSpec (env.Convert content).metaData
                    Date := dateSpec (env.Convert content).metaData
                    Navbar := navbar
                    Content := (env.Convert content).html })] }
            (env.Execute "./templates/blog.html" (.blog
              { Title := titleSpec (env.Convert content).metaData
                Date := dateSpec (env.Convert content).metaData
                Navbar := navbar
                Content := (env.Convert content).html })).1
        | .error _ =>
          { w := { status := some 404,
                   body := "Navbar file not found\n" ++
                     (env.Execute "./templates/blog.html" (.blog
                       { Title := titleSpec (env.Convert content).metaData
                         Date := dateSpec (env.Convert content).metaData
                         Navbar := ""
                         Content := (env.Convert content).html })).1 }
            trace := [.readFile (filepath.Join "blogs" (name ++ ".md")), .convert content,
              .parseFiles "./templates/blog.html", .readFile "./templates/navbar.html",
              .execute "./templates/blog.html" (.blog
                { Title := titleSpec (env.Convert content).metaData
                  Date := dateSpec (env.Convert content).metaData
                  Navbar := ""
                  Content := (env.Convert content).html })] }) := by
  unfold pageHandler
  have hn : (name.length == 0) = false := by simpa using hname
  simp only [hn, Bool.false_eq_true, if_false, hread, hconv, hparse, title_default, date_default]
  cases hnav : env.ReadFile "./templates/navbar.html" with
  | ok navbar =>
    simp only [GetNavbar, hnav, St.log, St.fresh]
    rcases hex : env.Execute "./templates/blog.html" (.blog
        { Title := titleSpec (env.Convert content).metaData
          Date := dateSpec (env.Convert content).metaData
          Navbar := navbar
          Content := (env.Convert content).html }) with ⟨out, _ | e⟩ <;>
      simp [Outcome.st]
  | error e0 =>
    simp only [GetNavbar, hnav, St.log, St.fresh]
    rcases hex : env.Execute "./templates/blog.html" (.blog
        { Title := titleSpec (env.Convert content).metaData
          Date := dateSpec (env.Convert content).metaData
          Navbar := ""
          Content := (env.Convert content).html }) with ⟨out, _ | e⟩ <;>
      simp [Outcome.st, Write, WriteHeader, http.Error, http.StatusNotFound,
        writeOutput_written]

/-- The run of `homeHandler` once the index is built. -/
theorem homeHandler_rendered (env : Env) (pages : List PageData)
    (hindex : parseMarkdownMetadata env "./blogs" = (pages, none))
    (hparse : env.ParseFiles "home.html" = none) :
    (homeHandler env St.fresh).st =
      (match env.ReadFile "./templates/navbar.html" with
        | .ok navbar =>
          writeOutput
            { w := { status := none, body := "" }
              trace := [.walk "./blogs", .readFile "./templates/navbar.html",
                .parseFiles "home.html",
                .execute "home.html" (.home
                  { Title := "", Date := "", Navbar := navbar, Content := "",
                    Pages := pages })] }
            (env.Execute "home.html" (.home
              { Title := "", Date := "", Navbar := navbar, Content := "", Pages := pages })).1
        | .error _ =>
          { w := { status := some 404,
                   body := "Navbar file not found\n" ++
                     (env.Execute "home.html" (.home
                       { Title := "", Date := "", Navbar := "", Content := "",
                         Pages := pages })).1 }
            trace := [.walk "./blogs", .readFile "./templates/navbar.html",
              .parseFiles "home.html",
              .execute "home.html" (.home
                { Title := "", Date := "", Navbar := "", Content := "", Pages := pages })] }) := by
  unfold homeHandler
  simp only [hindex]
  cases hnav : env.ReadFile "./templates/navbar.html" with
  | ok navbar =>
    simp only [GetNavbar, hnav, St.log, St.fresh, hparse]
    rcases hex : env.Execute "home.html" (.home
        { Title := "", Date := "", Navbar := navbar, Content := "", Pages := pages })
      with ⟨out, _ | e⟩ <;>
      simp [Outcome.st]
  | error e0 =>
    simp only [GetNavbar, hnav, St.log, St.fresh, hparse]
    rcases hex : env.Execute "home.html" (.home
        { Title := "", Date := "", Navbar := "", Content := "", Pages := pages })
      with ⟨out, _ | e⟩ <;>
      simp [Outcome.st, Write, WriteHeader, http.Error, http.StatusNotFound,
        writeOutput_written]

/-- The handler returns to the server when the home template executes. -/
theorem homeHandler_returns (env : Env) (pages : List PageData) (navbar : String)
    (hindex : parseMarkdownMetadata env "./blogs" = (pages, none))
    (hnav : env.ReadFile "./templates/navbar.html" = .ok navbar)
    (hparse : env.ParseFiles "home.html" = none)
    (hexec : (env.Execute "home.html" (.home
      { Title := "", Date := "", Navbar := navbar, Content := "", Pages := pages })).2 = none) :
    homeHandler env St.fresh = .returned (homeHandler env St.fresh).st := by
  unfold homeHandler
  simp only [hindex, GetNavbar, hnav, St.log, St.fresh, hparse]
  rcases hex : env.Execute "home.html" (.home
      { Title := "", Date := "", Navbar := navbar, Content := "", Pages := pages })
    with ⟨out, _ | e⟩
  · simp [Outcome.st]
  · rw [hex] at hexec; simp at hexec

theorem homeHandler_index_error (env : Env) (pages : List PageData) (err : Error)
    (hindex : parseMarkdownMetadata env "./blogs" = (pages, some err)) :
    homeHandler env St.fresh =
      .returned ⟨⟨some 404, "What happened\n"⟩, [.walk "./blogs"]⟩ := by
  unfold homeHandler
  simp [hindex, http.Error, Write, WriteHeader, St.log, St.fresh, http.StatusNotFound]

/-- Every run of `homeHandler` starts with the walk of `./blogs`. -/
theorem homeHandler_trace (env : Env) :
    ∃ rest, (homeHandler env St.fresh).st.trace = .walk "./blogs" :: rest := by
  rcases hidx : parseMarkdownMetadata env "./blogs" with ⟨pages, _ | err⟩
  · cases hp : env.ParseFiles "home.html" with
    | none =>
      rw [homeHandler_rendered env pages hidx hp]
      cases env.ReadFile "./templates/navbar.html"
      · exact ⟨_, rfl⟩
      · exact ⟨_, writeOutput_trace _ _⟩
    | some e =>
      unfold homeHandler
      simp only [hidx, hp, Outcome.st, GetNavbar, St.log, St.fresh]
      cases env.ReadFile "./templates/navbar.html" <;>
        simp [http.Error, Write, WriteHeader]
  · rw [homeHandler_index_error env pages err hidx]
    exact ⟨_, rfl⟩

/-- A run of `pageHandler` that read its file goes on to convert it. -/
theorem pageHandler_trace (env : Env) (name content : String)
    (hname : name.length ≠ 0)
    (hread : env.ReadFile (filepath.Join "blogs" (name ++ ".md")) = .ok content) :
    ∃ rest, (pageHandler env name St.fresh).st.trace =
      .readFile (filepath.Join "blogs" (name ++ ".md")) :: .convert content :: rest := by
  cases hconv : (env.Convert content).err with
  | some e =>
    unfold pageHandler
    have hn : (name.length == 0) = false := by simpa using hname
    simp [hn, hread, hconv, Outcome.st, http.Error, Write, WriteHeader, St.log, St.fresh]
  | none =>
    cases hp : env.ParseFiles "./templates/blog.html" with
    | none =>
      rw [pageHandler_rendered env name content hname hread hconv hp]
      cases env.ReadFile "./templates/navbar.html"
      · exact ⟨_, rfl⟩
      · exact ⟨_, writeOutput_trace _ _⟩
    | some e =>
      unfold pageHandler
      have hn : (name.length == 0) = false := by simpa using hname
      simp [hn, hread, hconv, hp, Outcome.st, St.log, St.fresh]

/-- No run of `pageHandler` on a name whose file is readable ends in the
not-found branch. -/
theorem pageHandler_not_notFound (env : Env) (name content : String)
    (hread : env.ReadFile (filepath.Join "blogs" (name ++ ".md")) = .ok content) :
    pageHandler env name St.fresh ≠
      .returned ⟨⟨some 404, "Markdown file not found\n"⟩,
        [.readFile (filepath.Join "blogs" (name ++ ".md"))]⟩ := by
  intro h
  have ht : (pageHandler env name St.fresh).st.trace =
      [.readFile (filepath.Join "blogs" (name ++ ".md"))] := by
    rw [h]; rfl
  by_cases hname : name.length = 0
  · have hhome : pageHandler env name St.fresh = homeHandler env St.fresh := by
      unfold pageHandler
      simp [hname]
    rw [hhome] at ht
    obtain ⟨rest, hrest⟩ := homeHandler_trace env
    rw [hrest] at ht
    simp at ht
  · obtain ⟨rest, hrest⟩ := pageHandler_trace env name content hname hread
    rw [hrest] at ht
    simp at ht

theorem pageOf_filename (env : Env) (path : String) (page : PageData)
    (h : pageOf env path = .ok page) :
    page.Filename = strings.TrimSuffix (filepath.Base path) (filepath.Ext path) := by
  unfold pageOf at h
  cases hr : env.ReadFile path with
  | error e => simp [hr] at h
  | ok content =>
    cases hc : (env.Convert content).err with
    | some e => simp [hr, hc] at h
    | none =>
      simp only [hr, hc, Except.ok.injEq] at h
      rw [← h]

theorem pageOf_readable (env : Env) (path : String) (page : PageData)
    (h : pageOf env path = .ok page) : ∃ content, env.ReadFile path = .ok content := by
  unfold pageOf at h
  cases hr : env.ReadFile path with
  | error e => simp [hr] at h
  | ok content => exact ⟨content, rfl⟩

theorem ext_of_isMarkdownFile (v : Visit) (h : v.isMarkdownFile = true) :
    filepath.Ext v.path = ".md" := by
  simp only [Visit.isMarkdownFile, Bool.and_eq_true, beq_iff_eq] at h
  exact h.2

theorem stems_of_pages (env : Env) (vs : List Visit) (pages : List PageData)
    (hmd : ∀ v ∈ vs, v.isMarkdownFile = true)
    (h : pages.map Except.ok = vs.map (fun u => pageOf env u.path)) :
    pages.map (fun p => p.Filename ++ ".md") = vs.map (fun v => filepath.Base v.path) := by
  induction vs generalizing pages with
  | nil =>
    cases pages with
    | nil => rfl
    | cons p ps => simp at h
  | cons v vs ih =>
    cases pages with
    | nil => simp at h
    | cons p ps =>
      simp only [List.map_cons, List.cons.injEq] at h ⊢
      obtain ⟨hp, hrest⟩ := h
      refine ⟨?_, ih ps (fun u hu => hmd u (List.mem_cons_of_mem _ hu)) hrest⟩
      have hext := ext_of_isMarkdownFile v (hmd v (List.mem_cons_self _ _))
      rw [pageOf_filename env v.path p hp.symm]
      exact trimSuffix_base_md v.path hext

theorem mem_pages_of_visit (env : Env) (vs : List Visit) (pages : List PageData)
    (h : pages.map Except.ok = vs.map (fun u => pageOf env u.path))
    (v : Visit) (hv : v ∈ vs) (page : PageData) (hp : pageOf env v.path = .ok page) :
    page ∈ pages := by
  have hmem : pageOf env v.path ∈ vs.map (fun u => pageOf env u.path) :=
    List.mem_map.mpr ⟨v, hv, rfl⟩
  rw [← h, hp] at hmem
  obtain ⟨q, hq, hqe⟩ := List.mem_map.mp hmem
  have : q = page := by simpa using hqe
  rw [← this]
  exact hq

/-! ## The claims -/

/-- C1: for every post that `pageHandler` serves (a non-empty name, a file that
is read and converted, a blog template that parses) and every front-matter
mapping extracted from it, whatever other keys it holds, the blog template is
executed once, and the record it is given has as Title the value at key
`title` when that value is present and a string and `"Untitled"` otherwise,
and as Date the value at key `date` when it is present and a string and
`"01/01/20XX"` otherwise. -/
theorem pageHandler_title_date (env : Env) (name content : String)
    (hname : name.length ≠ 0)
    (hread : env.ReadFile (filepath.Join "blogs" (name ++ ".md")) = .ok content)
    (hconv : (env.Convert content).err = none)
    (hparse : env.ParseFiles "./templates/blog.html" = none) :
    (pageHandler env name St.fresh).executed.map (fun x => (x.1, x.2.titleDate)) =
      [("./templates/blog.html",
        (titleSpec (env.Convert content).metaData, dateSpec (env.Convert content).metaData))] := by
  unfold Outcome.executed
  rw [pageHandler_rendered env name content hname hread hconv hparse]
  cases env.ReadFile "./templates/navbar.html"
  · rfl
  · simp only [writeOutput_trace]
    rfl

theorem pageHandler_title_date_witness :
    (pageHandler flatEnv "a" St.fresh).executed.map (fun x => (x.1, x.2.titleDate)) =
        [("./templates/blog.html", ("Hello", "2024-01-01"))] ∧
      (pageHandler flatEnv "z" St.fresh).executed.map (fun x => (x.1, x.2.titleDate)) =
        [("./templates/blog.html", ("Untitled", "01/01/20XX"))] :=
  ⟨pageHandler_title_date flatEnv "a" "A" (by decide) (by rfl) (by rfl) (by rfl),
    pageHandler_title_date flatEnv "z" "Z" (by decide) (by rfl) (by rfl) (by rfl)⟩

/-- C2: when the walk of a directory completes without error, the list that
`parseMarkdownMetadata` returns has exactly one `PageData` for each visited
entry that is not a directory and has extension `.md` (directories, also those
named `*.md`, and other files add nothing), and, in order, each Filename
followed by `.md` is the base name of its source file. -/
theorem parseMarkdownMetadata_count_stems (env : Env) (dir : String) (pages : List PageData)
    (h : parseMarkdownMetadata env dir = (pages, none)) :
    pages.length = ((visits dir (env.Tree dir)).filter Visit.isMarkdownFile).length ∧
      pages.map (fun p => p.Filename ++ ".md") =
        ((visits dir (env.Tree dir)).filter Visit.isMarkdownFile).map
          (fun v => filepath.Base v.path) := by
  obtain ⟨_, hpages⟩ := parseMarkdownMetadata_ok env dir pages h
  constructor
  · have := congrArg List.length hpages
    simpa using this
  · exact stems_of_pages env _ pages (fun v hv => (List.mem_filter.mp hv).2) hpages

theorem parseMarkdownMetadata_count_stems_witness :
    [({ Title := "Hello", Date := "2024-01-01", Filename := "a" } : PageData),
        { Title := "", Date := "", Filename := "z" }].length =
        ((visits "./blogs" (flatEnv.Tree "./blogs")).filter Visit.isMarkdownFile).length ∧
      [({ Title := "Hello", Date := "2024-01-01", Filename := "a" } : PageData),
        { Title := "", Date := "", Filename := "z" }].map (fun p => p.Filename ++ ".md") =
        ((visits "./blogs" (flatEnv.Tree "./blogs")).filter Visit.isMarkdownFile).map
          (fun v => filepath.Base v.path) :=
  parseMarkdownMetadata_count_stems flatEnv "./blogs" _ (by rfl)

/-- C3, counterexample: with the single post `blogs/sub/post.md`, the listing
holds the filename stem `post`, the path `blogs/post.md` that `pageHandler`
resolves for it cannot be read, and the request takes the not-found branch. -/
theorem nested_post_not_found :
    parseMarkdownMetadata nestedEnv "./blogs" =
        ([{ Title := "", Date := "", Filename := "post" }], none) ∧
      filepath.Join "blogs" ("post" ++ ".md") = "blogs/post.md" ∧
      nestedEnv.ReadFile "blogs/post.md" = .error enoent ∧
      pageHandler nestedEnv "post" St.fresh =
        .returned ⟨⟨some 404, "Markdown file not found\n"⟩, [.readFile "blogs/post.md"]⟩ :=
  ⟨by rfl, by rfl, by rfl, by rfl⟩

/-- C3, amended: when `parseMarkdownMetadata("./blogs")` succeeds, the
`PageData` built from a visited `.md` file that lies directly in `blogs` (its
walk path is `blogs/<base name>`) and has a non-empty Filename is in the
returned list; for name = Filename, `pageHandler` resolves the path
`blogs/<Filename>.md`, which is the path of that file, reads it with success
and goes on to convert its content, so the request does not end in the
not-found branch of `pageHandler`. -/
theorem listed_page_resolves (env : Env) (pages : List PageData)
    (h : parseMarkdownMetadata env "./blogs" = (pages, none))
    (v : Visit) (hv : v ∈ visits "./blogs" (env.Tree "./blogs"))
    (hmd : v.isMarkdownFile = true) (hdir : directlyInBlogs v.path)
    (page : PageData) (hpage : pageOf env v.path = .ok page)
    (hname : page.Filename.length ≠ 0)
    (content : String) (hcontent : env.ReadFile v.path = .ok content) :
    page ∈ pages ∧
      filepath.Join "blogs" (page.Filename ++ ".md") = v.path ∧
      (pageHandler env page.Filename St.fresh).st.trace.take 2 =
        [.readFile v.path, .convert content] ∧
      pageHandler env page.Filename St.fresh ≠
        .returned ⟨⟨some 404, "Markdown file not found\n"⟩, [.readFile v.path]⟩ := by
  obtain ⟨_, hpages⟩ := parseMarkdownMetadata_ok env "./blogs" pages h
  have hmem : page ∈ pages :=
    mem_pages_of_visit env _ pages hpages v (List.mem_filter.mpr ⟨hv, hmd⟩) page hpage
  have hres : filepath.Join "blogs" (page.Filename ++ ".md") = v.path := by
    rw [pageOf_filename env v.path page hpage]
    exact resolve_stem v.path (ext_of_isMarkdownFile v hmd) hdir
  have hread : env.ReadFile (filepath.Join "blogs" (page.Filename ++ ".md")) = .ok content := by
    rw [hres]; exact hcontent
  obtain ⟨rest, hrest⟩ := pageHandler_trace env page.Filename content hname hread
  have hnot := pageHandler_not_notFound env page.Filename content hread
  rw [hres] at hrest hnot
  refine ⟨hmem, hres, ?_, hnot⟩
  rw [hrest]
  rfl

theorem listed_page_resolves_witness :
    ({ Title := "Hello", Date := "2024-01-01", Filename := "a" } : PageData) ∈
        [({ Title := "Hello", Date := "2024-01-01", Filename := "a" } : PageData),
          { Title := "", Date := "", Filename := "z" }] ∧
      filepath.Join "blogs" ("a" ++ ".md") = "blogs/a.md" ∧
      (pageHandler flatEnv "a" St.fresh).st.trace.take 2 =
        [.readFile "blogs/a.md", .convert "A"] ∧
      pageHandler flatEnv "a" St.fresh ≠
        .returned ⟨⟨some 404, "Markdown file not found\n"⟩, [.readFile "blogs/a.md"]⟩ :=
  listed_page_resolves flatEnv _ (by rfl) ⟨"blogs/a.md", some ⟨false⟩, none⟩
    (by decide) (by decide) (by rfl)
    { Title := "Hello", Date := "2024-01-01", Filename := "a" } (by rfl) (by decide)
    "A" (by rfl)

/-- C4, the code at the failing input: for `blogs/z.md`, whose front-matter has
no string-valued title and no date, the listing carries the empty string as
Title and as Date, while `pageHandler` renders the same file with
`"Untitled"` and `"01/01/20XX"`. -/
theorem listing_lacks_defaults :
    parseMarkdownMetadata flatEnv "./blogs" =
        ([{ Title := "Hello", Date := "2024-01-01", Filename := "a" },
          { Title := "", Date := "", Filename := "z" }], none) ∧
      (pageHandler flatEnv "z" St.fresh).executed =
        [("./templates/blog.html",
          .blog { Title := "Untitled", Date := "01/01/20XX", Navbar := "<nav/>",
                  Content := "<p>z</p>" })] :=
  ⟨by rfl, by rfl⟩

/-- C5: when a step of the walk fails (the walk reports an error for the entry,
or the entry is a `.md` file and reading it or converting it fails),
`parseMarkdownMetadata` returns an error together with the empty list; the
error is that of the failing step of the run, the first one in walk order, and
nothing of what was accumulated before it is returned. -/
theorem parseMarkdownMetadata_fail_fast (env : Env) (dir : String) :
    (∀ v ∈ visits dir (env.Tree dir), stepError env v ≠ none →
        ∃ err, parseMarkdownMetadata env dir = ([], some err)) ∧
      (∀ before v after err, visits dir (env.Tree dir) = before ++ v :: after →
        (∀ u ∈ before, stepError env u = none) →
        stepError env v = some err →
        parseMarkdownMetadata env dir = ([], some err)) := by
  constructor
  · intro v hv hfail
    rw [parseMarkdownMetadata_eq]
    cases hf : (visits dir (env.Tree dir)).findSome? (stepError env) with
    | none => exact absurd (stepError_none_of_findSome env _ hf v hv) hfail
    | some err => exact ⟨err, rfl⟩
  · intro before v after err hvisits hbefore hfail
    rw [parseMarkdownMetadata_eq, hvisits]
    have hnone : before.findSome? (stepError env) = none :=
      List.findSome?_eq_none_iff.mpr hbefore
    have : (before ++ v :: after).findSome? (stepError env) = some err := by
      rw [List.findSome?_append, hnone]
      simp [List.findSome?_cons, hfail]
    rw [this]

theorem parseMarkdownMetadata_fail_fast_witness :
    pageOf brokenEnv "blogs/a.md" =
        .ok { Title := "Hello", Date := "2024-01-01", Filename := "a" } ∧
      parseMarkdownMetadata brokenEnv "./blogs" = ([], some ⟨"conversion failed"⟩) :=
  ⟨by rfl,
    (parseMarkdownMetadata_fail_fast brokenEnv "./blogs").2
      [⟨"./blogs", some ⟨true⟩, none⟩, ⟨"blogs/a.md", some ⟨false⟩, none⟩]
      ⟨"blogs/b.md", some ⟨false⟩, none⟩ [⟨"blogs/c.md", some ⟨false⟩, none⟩]
      ⟨"conversion failed"⟩ (by rfl) (by decide) (by rfl)⟩

/-- C6: for every non-empty route name such that reading `blogs/<name>.md`
fails, `pageHandler` responds with status 404 and returns after that one read:
no Markdown is converted, the navbar is not loaded and no template is parsed or
executed. -/
theorem pageHandler_not_found (env : Env) (name : String) (err : Error)
    (hname : name.length ≠ 0)
    (hread : env.ReadFile (filepath.Join "blogs" (name ++ ".md")) = .error err) :
    pageHandler env name St.fresh =
        .returned ⟨⟨some 404, "Markdown file not found\n"⟩,
          [.readFile (filepath.Join "blogs" (name ++ ".md"))]⟩ ∧
      (pageHandler env name St.fresh).responseStatus = some 404 ∧
      (pageHandler env name St.fresh).executed = [] := by
  have hn : (name.length == 0) = false := by simpa using hname
  have hrun : pageHandler env name St.fresh =
      .returned ⟨⟨some 404, "Markdown file not found\n"⟩,
        [.readFile (filepath.Join "blogs" (name ++ ".md"))]⟩ := by
    unfold pageHandler
    simp [hn, hread, http.Error, Write, WriteHeader, St.log, St.fresh, http.StatusNotFound]
  rw [hrun]
  exact ⟨rfl, rfl, rfl⟩

theorem pageHandler_not_found_witness :
    pageHandler flatEnv "nonexistent" St.fresh =
        .returned ⟨⟨some 404, "Markdown file not found\n"⟩,
          [.readFile (filepath.Join "blogs" ("nonexistent" ++ ".md"))]⟩ ∧
      (pageHandler flatEnv "nonexistent" St.fresh).responseStatus = some 404 ∧
      (pageHandler flatEnv "nonexistent" St.fresh).executed = [] :=
  pageHandler_not_found flatEnv "nonexistent" enoent (by decide) (by rfl)

/-- C7: for every non-empty route name whose file `blogs/<name>.md` is read but
whose Markdown conversion returns an error, `pageHandler` responds with status
500 and returns after the conversion: no template is parsed or executed. -/
theorem pageHandler_conversion_error (env : Env) (name content : String) (err : Error)
    (hname : name.length ≠ 0)
    (hread : env.ReadFile (filepath.Join "blogs" (name ++ ".md")) = .ok content)
    (hconv : (env.Convert content).err = some err) :
    pageHandler env name St.fresh =
        .returned ⟨⟨some 500, "Error processing markdown\n"⟩,
          [.readFile (filepath.Join "blogs" (name ++ ".md")), .convert content]⟩ ∧
      (pageHandler env name St.fresh).responseStatus = some 500 ∧
      (pageHandler env name St.fresh).executed = [] := by
  have hn : (name.length == 0) = false := by simpa using hname
  have hrun : pageHandler env name St.fresh =
      .returned ⟨⟨some 500, "Error processing markdown\n"⟩,
        [.readFile (filepath.Join "blogs" (name ++ ".md")), .convert content]⟩ := by
    unfold pageHandler
    simp [hn, hread, hconv, http.Error, Write, WriteHeader, St.log, St.fresh,
      http.StatusInternalServerError]
  rw [hrun]
  exact ⟨rfl, rfl, rfl⟩

theorem pageHandler_conversion_error_witness :
    pageHandler brokenEnv "b" St.fresh =
        .returned ⟨⟨some 500, "Error processing markdown\n"⟩,
          [.readFile (filepath.Join "blogs" ("b" ++ ".md")), .convert "!"]⟩ ∧
      (pageHandler brokenEnv "b" St.fresh).responseStatus = some 500 ∧
      (pageHandler brokenEnv "b" St.fresh).executed = [] :=
  pageHandler_conversion_error brokenEnv "b" "!" ⟨"conversion failed"⟩ (by decide) (by rfl)
    (by rfl)

/-- C8: in a run of `homeHandler`, if building the page index over `./blogs`
fails the handler returns with status 404; if the index is built and reading
the navbar fragment fails, the status written to the response is 404; if both
succeed, also with an empty listing, and the home template parses and
executes, the home template is executed on the listing, the handler returns,
the status of the response is 200 and its body is the output of the
template. -/
theorem homeHandler_status (env : Env) :
    (∀ pages err, parseMarkdownMetadata env "./blogs" = (pages, some err) →
        homeHandler env St.fresh =
          .returned ⟨⟨some 404, "What happened\n"⟩, [.walk "./blogs"]⟩) ∧
      (∀ pages err, parseMarkdownMetadata env "./blogs" = (pages, none) →
        env.ReadFile "./templates/navbar.html" = .error err →
        (homeHandler env St.fresh).st.w.status = some 404) ∧
      (∀ pages navbar, parseMarkdownMetadata env "./blogs" = (pages, none) →
        env.ReadFile "./templates/navbar.html" = .ok navbar →
        env.ParseFiles "home.html" = none →
        (env.Execute "home.html" (.home
          { Title := "", Date := "", Navbar := navbar, Content := "", Pages := pages })).2 = none →
        (homeHandler env St.fresh).responseStatus = some 200 ∧
          (homeHandler env St.fresh).st.w.body =
            (env.Execute "home.html" (.home
              { Title := "", Date := "", Navbar := navbar, Content := "", Pages := pages })).1 ∧
          (homeHandler env St.fresh).st.trace =
            [.walk "./blogs", .readFile "./templates/navbar.html", .parseFiles "home.html",
              .execute "home.html" (.home
                { Title := "", Date := "", Navbar := navbar, Content := "",
                  Pages := pages })]) := by
  refine ⟨fun pages err h => homeHandler_index_error env pages err h, ?_, ?_⟩
  · intro pages err hindex hnav
    cases hp : env.ParseFiles "home.html" with
    | none =>
      rw [homeHandler_rendered env pages hindex hp, hnav]
    | some e =>
      unfold homeHandler
      simp [hindex, hp, hnav, Outcome.st, GetNavbar, St.log, St.fresh, http.Error, Write,
        WriteHeader, http.StatusNotFound]
  · intro pages navbar hindex hnav hparse hexec
    have hret := homeHandler_returns env pages navbar hindex hnav hparse hexec
    have hst := homeHandler_rendered env pages hindex hparse
    rw [hnav] at hst
    simp only at hst
    have hfresh := writeOutput_fresh
      [.walk "./blogs", .readFile "./templates/navbar.html", .parseFiles "home.html",
        .execute "home.html" (.home
          { Title := "", Date := "", Navbar := navbar, Content := "", Pages := pages })]
      (env.Execute "home.html" (.home
        { Title := "", Date := "", Navbar := navbar, Content := "", Pages := pages })).1
    rw [← hst] at hfresh
    refine ⟨?_, hfresh.2, ?_⟩
    · have hstatus : (homeHandler env St.fresh).responseStatus =
          some ((homeHandler env St.fresh).st.w.status.getD 200) := by
        generalize homeHandler env St.fresh = o at hret
        cases o with
        | returned st => rfl
        | fatal st e => simp [Outcome.st] at hret
      rw [hstatus, hfresh.1]
    · rw [hst, writeOutput_trace]

theorem homeHandler_status_witness :
    homeHandler brokenEnv St.fresh =
        .returned ⟨⟨some 404, "What happened\n"⟩, [.walk "./blogs"]⟩ ∧
      (homeHandler noNavbarEnv St.fresh).st.w.status = some 404 ∧
      ((homeHandler emptyEnv St.fresh).responseStatus = some 200 ∧
        (homeHandler emptyEnv St.fresh).st.w.body = "home.html[||<nav/>]" ∧
        (homeHandler emptyEnv St.fresh).st.trace =
          [.walk "./blogs", .readFile "./templates/navbar.html", .parseFiles "home.html",
            .execute "home.html" (.home
              { Title := "", Date := "", Navbar := "<nav/>", Content := "", Pages := [] })]) ∧
      ((homeHandler silentEnv St.fresh).responseStatus = some 200 ∧
        (homeHandler silentEnv St.fresh).st.w.body = "" ∧
        (homeHandler silentEnv St.fresh).st.trace =
          [.walk "./blogs", .readFile "./templates/navbar.html", .parseFiles "home.html",
            .execute "home.html" (.home
              { Title := "", Date := "", Navbar := "<nav/>", Content := "", Pages := [] })]) :=
  ⟨(homeHandler_status brokenEnv).1 [] ⟨"conversion failed"⟩ (by rfl),
    (homeHandler_status noNavbarEnv).2.1
      [{ Title := "Hello", Date := "2024-01-01", Filename := "a" },
        { Title := "", Date := "", Filename := "z" }] enoent (by rfl) (by rfl),
    (homeHandler_status emptyEnv).2.2 [] "<nav/>" (by rfl) (by rfl) (by rfl) (by rfl),
    (homeHandler_status silentEnv).2.2 [] "<nav/>" (by rfl) (by rfl) (by rfl) (by rfl)⟩

/-- C9: when the walk succeeds, the list returned by `parseMarkdownMetadata` is
the sequence of visited entries, in the order of the walk, filtered to the
entries that are not directories and have extension `.md`, each mapped to its
`PageData`; and `homeHandler` gives that list, unchanged, to the home template
as Pages. -/
theorem listing_in_walk_order (env : Env) (pages : List PageData)
    (h : parseMarkdownMetadata env "./blogs" = (pages, none)) :
    pages.map Except.ok =
        ((visits "./blogs" (env.Tree "./blogs")).filter Visit.isMarkdownFile).map
          (fun v => pageOf env v.path) ∧
      (env.ParseFiles "home.html" = none →
        (homeHandler env St.fresh).executed.map (fun x => (x.1, x.2.pages)) =
          [("home.html", pages)]) := by
  refine ⟨(parseMarkdownMetadata_ok env "./blogs" pages h).2, ?_⟩
  intro hparse
  unfold Outcome.executed
  rw [homeHandler_rendered env pages h hparse]
  cases env.ReadFile "./templates/navbar.html"
  · rfl
  · simp only [writeOutput_trace]
    rfl

theorem listing_in_walk_order_witness :
    [({ Title := "Hello", Date := "2024-01-01", Filename := "a" } : PageData),
        { Title := "", Date := "", Filename := "z" }].map Except.ok =
        ((visits "./blogs" (flatEnv.Tree "./blogs")).filter Visit.isMarkdownFile).map
          (fun v => pageOf flatEnv v.path) ∧
      (homeHandler flatEnv St.fresh).executed.map (fun x => (x.1, x.2.pages)) =
        [("home.html", [{ Title := "Hello", Date := "2024-01-01", Filename := "a" },
          { Title := "", Date := "", Filename := "z" }])] :=
  ⟨(listing_in_walk_order flatEnv _ (by rfl)).1,
    (listing_in_walk_order flatEnv _ (by rfl)).2 (by rfl)⟩

/-- C10: when reading `./templates/navbar.html` fails, `GetNavbar` writes the
404 error response and the handler goes on: `homeHandler` (once the index is
built and `home.html` parses) and `pageHandler` (once the post is read and
converted and the blog template parses) execute their template with Navbar
equal to the empty string, and the response body is the error message followed
by the output of the template. -/
theorem navbar_failure_goes_on (env : Env) (err : Error)
    (hnav : env.ReadFile "./templates/navbar.html" = .error err) :
    (∀ pages, parseMarkdownMetadata env "./blogs" = (pages, none) →
        env.ParseFiles "home.html" = none →
        (homeHandler env St.fresh).executed =
            [("home.html", .home
              { Title := "", Date := "", Navbar := "", Content := "", Pages := pages })] ∧
          (homeHandler env St.fresh).st.w =
            { status := some 404,
              body := "Navbar file not found\n" ++
                (env.Execute "home.html" (.home
                  { Title := "", Date := "", Navbar := "", Content := "",
                    Pages := pages })).1 }) ∧
      (∀ name content, name.length ≠ 0 →
        env.ReadFile (filepath.Join "blogs" (name ++ ".md")) = .ok content →
        (env.Convert content).err = none →
        env.ParseFiles "./templates/blog.html" = none →
        (pageHandler env name St.fresh).executed =
            [("./templates/blog.html", .blog
              { Title := titleSpec (env.Convert content).metaData
                Date := dateSpec (env.Convert content).metaData
                Navbar := ""
                Content := (env.Convert content).html })] ∧
          (pageHandler env name St.fresh).st.w =
            { status := some 404,
              body := "Navbar file not found\n" ++
                (env.Execute "./templates/blog.html" (.blog
                  { Title := titleSpec (env.Convert content).metaData
                    Date := dateSpec (env.Convert content).metaData
                    Navbar := ""
                    Content := (env.Convert content).html })).1 }) := by
  constructor
  · intro pages hindex hparse
    unfold Outcome.executed
    rw [homeHandler_rendered env pages hindex hparse, hnav]
    exact ⟨rfl, rfl⟩
  · intro name content hname hread hconv hparse
    unfold Outcome.executed
    rw [pageHandler_rendered env name content hname hread hconv hparse, hnav]
    exact ⟨rfl, rfl⟩

theorem navbar_failure_goes_on_witness :
    ((homeHandler noNavbarEnv St.fresh).executed =
          [("home.html", .home
            { Title := "", Date := "", Navbar := "", Content := "",
              Pages := [{ Title := "Hello", Date := "2024-01-01", Filename := "a" },
                { Title := "", Date := "", Filename := "z" }] })] ∧
        (homeHandler noNavbarEnv St.fresh).st.w =
          { status := some 404, body := "Navbar file not found\nhome.html[||]" }) ∧
      ((pageHandler noNavbarEnv "a" St.fresh).executed =
          [("./templates/blog.html", .blog
            { Title := "Hello", Date := "2024-01-01", Navbar := "",
              Content := "<h1>Hi</h1>" })] ∧
        (pageHandler noNavbarEnv "a" St.fresh).st.w =
          { status := some 404,
            body := "Navbar file not found\n./templates/blog.html[Hello|2024-01-01|]" }) :=
  ⟨(navbar_failure_goes_on noNavbarEnv enoent (by rfl)).1 _ (by rfl) (by rfl),
    (navbar_failure_goes_on noNavbarEnv enoent (by rfl)).2 "a" "A" (by decide) (by rfl) (by rfl)
      (by rfl)⟩

end Blog
